import Mathlib

/-!
# Instant-Chat: verification of the real-time messaging core

A shallow embedding of the Go sources of the Instant-Chat repository:

* `internal/crypto` (`Encrypt` / `Decrypt`): secretbox-based at-rest
  encryption of message bodies, transported as `base64(nonce ++ box)`.
  The external `golang.org/x/crypto/nacl/secretbox` primitive is modelled
  abstractly by a `SecretBox` structure carrying the seal / box-open pair
  together with the authenticated-encryption round-trip contract; the Go
  standard library `encoding/base64` std encoding is modelled concretely.
* `internal/store` (`CreateMessage` / `GetMessagesBetweenUsers`): the
  Postgres-backed message store, modelled as a list of rows with a
  store-assigned monotonically increasing id and store-assigned timestamp.
* `internal/api/websocket_handler.go` (`handleSendMessage` /
  `handleGetMessages` and the registry manipulation of `HandleWebSocket`):
  handlers modelled as pure functions from handler state and inbound
  envelope to the updated store plus the list of frames written to
  connections.

Bytes are modelled as `Nat` with explicit `< 256` well-formedness
hypotheses where needed; Go strings holding message bodies are modelled by
their UTF-8 byte lists; timestamps are modelled as abstract `Nat` clock
readings supplied as inputs (the handler clock `time.Now()` and the
database clock assigning `created_at` are independent inputs).
-/

namespace Chat

/-! ## Base64 (Go `encoding/base64`, `StdEncoding`) -/

/-- The standard base64 alphabet used by Go's `base64.StdEncoding`. -/
def b64Alphabet : List Char :=
  "ABCDEFGHIJKLMNOPQRSTUVWXYZabcdefghijklmnopqrstuvwxyz0123456789+/".data

/-- The base64 digit character for a 6-bit value. -/
def b64Char (n : Nat) : Char := b64Alphabet.getD n 'A'

/-- Index of a character in the base64 alphabet; `none` for characters
outside the alphabet (such as `=` or garbage). -/
def b64Index (c : Char) : Option Nat := b64Alphabet.findIdx? (· == c)

/-- Base64 encoding of a byte list, 3 input bytes to 4 output characters,
with `=` padding exactly as Go's `StdEncoding.EncodeToString`. -/
def b64EncodeBytes : List Nat → List Char
  | [] => []
  | [a] =>
    let n := a % 256 * 65536
    [b64Char (n / 262144 % 64), b64Char (n / 4096 % 64), '=', '=']
  | [a, b] =>
    let n := a % 256 * 65536 + b % 256 * 256
    [b64Char (n / 262144 % 64), b64Char (n / 4096 % 64), b64Char (n / 64 % 64), '=']
  | a :: b :: c :: rest =>
    let n := a % 256 * 65536 + b % 256 * 256 + c % 256
    b64Char (n / 262144 % 64) :: b64Char (n / 4096 % 64) :: b64Char (n / 64 % 64) ::
      b64Char (n % 64) :: b64EncodeBytes rest

/-- `base64.StdEncoding.EncodeToString`. -/
def b64Encode (l : List Nat) : String := String.mk (b64EncodeBytes l)

/-- Decode a stream of base64 quads; `=` padding is accepted only in the
final quad, any character outside the alphabet (and any input whose length
is not a multiple of 4) is rejected, as in Go's `StdEncoding.Decode`. -/
def b64DecodeQuads : List Char → Option (List Nat)
  | [] => some []
  | a :: b :: c :: d :: rest => do
    let ia ← b64Index a
    let ib ← b64Index b
    if c = '=' then
      if d = '=' ∧ rest = [] then
        pure [(ia * 262144 + ib * 4096) / 65536 % 256]
      else none
    else do
      let ic ← b64Index c
      if d = '=' then
        if rest = [] then
          let n := ia * 262144 + ib * 4096 + ic * 64
          pure [n / 65536 % 256, n / 256 % 256]
        else none
      else do
        let id' ← b64Index d
        let tail ← b64DecodeQuads rest
        let n := ia * 262144 + ib * 4096 + ic * 64 + id'
        pure (n / 65536 % 256 :: n / 256 % 256 :: n % 256 :: tail)
  | _ => none

/-- `base64.StdEncoding.DecodeString`: Go's decoder skips carriage returns
and newlines, then decodes strict padded quads. -/
def b64Decode (s : String) : Option (List Nat) :=
  b64DecodeQuads (s.data.filter (fun c => !(c == '\r' || c == '\n')))

/-! ## Cipher (`internal/crypto/encryption.go`)

`golang.org/x/crypto/nacl/secretbox` is external library code; it is
modelled abstractly as an authenticated-encryption pair `seal` / `boxOpen`
over byte lists, with the library's documented contract (opening a sealed
box under the same nonce and key recovers the message, and sealing
produces bytes). `Encrypt` passes `secretbox.Seal(nonce[:], message,
&nonce, &key)`, whose result is the nonce followed by the box, so the
embedding appends the abstract box to the nonce explicitly. The random
nonce drawn by `Encrypt` from `crypto/rand` is passed in as an argument;
nonce-generation failure and the process-wide key loading of `init` are
not modelled. -/

/-- Abstract model of `nacl/secretbox`: `seal nonce key msg` is the
authenticated box (ciphertext plus Poly1305 tag), `boxOpen nonce key box`
authenticates and decrypts, returning `none` on tag mismatch. -/
structure SecretBox where
  sealBox : List Nat → List Nat → List Nat → List Nat
  boxOpen : List Nat → List Nat → List Nat → Option (List Nat)
  seal_bytes : ∀ nonce key msg, (∀ b ∈ msg, b < 256) → ∀ b ∈ sealBox nonce key msg, b < 256
  open_seal : ∀ nonce key msg, (∀ b ∈ msg, b < 256) →
    boxOpen nonce key (sealBox nonce key msg) = some msg

/-- `crypto.Encrypt`: seal the plaintext under a fresh 24-byte nonce and
return `base64(nonce ++ box)`. -/
def Encrypt (sb : SecretBox) (key nonce plaintext : List Nat) : String :=
  b64Encode (nonce ++ sb.sealBox nonce key plaintext)

/-- `crypto.Decrypt`: base64-decode, require at least 24 bytes, split off
the nonce, authenticate and decrypt. Mirrors the Go signature
`(string, error)`: the result is the plaintext bytes paired with an
optional error message, and every failure returns the empty plaintext. -/
def Decrypt (sb : SecretBox) (key : List Nat) (ciphertext : String) :
    List Nat × Option String :=
  match b64Decode ciphertext with
  | none => ([], some "failed to decode ciphertext")
  | some data =>
    if data.length < 24 then ([], some "encrypted message is too short")
    else
      match sb.boxOpen (data.take 24) key (data.drop 24) with
      | none => ([], some "failed to decrypt message")
      | some decrypted => (decrypted, none)

/-- A concrete instance of the secretbox model (box = 16-byte tag followed
by the message), used to run the development on concrete inputs. -/
def sbModel : SecretBox where
  sealBox _ _ msg := List.replicate 16 0 ++ msg
  boxOpen _ _ box :=
    if box.take 16 = List.replicate 16 0 then some (box.drop 16) else none
  seal_bytes := by
    intro nonce key msg hm b hb
    rcases List.mem_append.mp hb with h | h
    · have := List.eq_of_mem_replicate h
      omega
    · exact hm b h
  open_seal := by
    intro nonce key msg hm
    have ht : (List.replicate 16 (0 : Nat) ++ msg).take 16 = List.replicate 16 0 :=
      List.take_left' (by simp)
    have hd : (List.replicate 16 (0 : Nat) ++ msg).drop 16 = msg :=
      List.drop_left' (by simp)
    simp [ht, hd]

/-- A concrete 32-byte key and 24-byte nonce for concrete runs. -/
def key0 : List Nat := List.replicate 32 0

def nonce0 : List Nat := List.range 24

/-! ## Message store (`internal/store/message_store.go`)

The Postgres `messages` table is modelled as a list of rows plus the
sequence counter backing the store-assigned `id`; `created_at` is assigned
by the database from its own clock, passed in as the `dbNow` argument. -/

/-- One persisted row of the `messages` table. -/
structure Row where
  id : Nat
  senderId : Nat
  receiverId : Nat
  encryptedContent : String
  createdAt : Nat
deriving DecidableEq, Repr

/-- The `messages` table plus the sequence assigning ids. -/
structure DB where
  rows : List Row
  nextId : Nat
deriving DecidableEq, Repr

/-- `store.Message`: `EncryptedContent` carries the ciphertext
(`json:"-"`), `content` the plaintext bytes. -/
structure Message where
  id : Nat
  senderId : Nat
  receiverId : Nat
  encryptedContent : String
  content : List Nat
  createdAt : Nat
deriving DecidableEq, Repr, Inhabited

/-- The row a `store.Message` was scanned from. -/
def Message.toRow (m : Message) : Row :=
  ⟨m.id, m.senderId, m.receiverId, m.encryptedContent, m.createdAt⟩

/-- `PostgresMessageStore.CreateMessage`: encrypt the content, insert
`(sender_id, receiver_id, encrypted_content)` and scan back the
store-assigned `id` and `created_at`; the returned `Message` carries the
original plaintext, not a re-decryption. The database write itself is
assumed to succeed (a failed insert returns the error unchanged and
leaves the table untouched, which no claim exercises). -/
def CreateMessage (sb : SecretBox) (key nonce : List Nat) (db : DB) (dbNow : Nat)
    (senderID receiverID : Nat) (content : List Nat) : DB × Message :=
  let encryptedContent := Encrypt sb key nonce content
  ({ rows := db.rows ++ [⟨db.nextId, senderID, receiverID, encryptedContent, dbNow⟩],
     nextId := db.nextId + 1 },
   ⟨db.nextId, senderID, receiverID, encryptedContent, content, dbNow⟩)

/-- The `WHERE` clause of `GetMessagesBetweenUsers`:
`(sender_id = $1 AND receiver_id = $2) OR (sender_id = $2 AND receiver_id = $1)`. -/
def pairFilter (a b : Nat) (r : Row) : Bool :=
  (r.senderId == a && r.receiverId == b) || (r.senderId == b && r.receiverId == a)

/-- `ORDER BY created_at` on the two timestamps. -/
def rowLe (r₁ r₂ : Row) : Prop := r₁.createdAt ≤ r₂.createdAt

instance : DecidableRel rowLe := fun r₁ r₂ => Nat.decLe r₁.createdAt r₂.createdAt

/-- The SQL query of `GetMessagesBetweenUsers`: filter on the unordered
pair and sort ascending by `created_at` (a stable sort; ties are broken by
storage order). -/
def queryMessagesBetween (db : DB) (a b : Nat) : List Row :=
  List.insertionSort rowLe (db.rows.filter (pairFilter a b))

/-- The `rows.Next()` scan loop: decrypt each row in query order; a failed
decrypt aborts the whole call. -/
def scanRows (sb : SecretBox) (key : List Nat) : List Row → Option (List Message)
  | [] => some []
  | r :: rest =>
    match Decrypt sb key r.encryptedContent with
    | (_, some _) => none
    | (content, none) =>
      (scanRows sb key rest).map
        (⟨r.id, r.senderId, r.receiverId, r.encryptedContent, content, r.createdAt⟩ :: ·)

/-- `PostgresMessageStore.GetMessagesBetweenUsers`. -/
def GetMessagesBetweenUsers (sb : SecretBox) (key : List Nat) (db : DB) (a b : Nat) :
    Option (List Message) :=
  scanRows sb key (queryMessagesBetween db a b)

/-! ## WebSocket routing engine (`internal/api/websocket_handler.go`)

`h.clients` is the registry mapping a user id to its live connection;
connections are identified by opaque handles, modelled as `Nat`.
`userStore.GetUserByID` is consumed only through its read contract and is
modelled by the list of existing user ids. Handlers are modelled as pure
functions returning the updated store together with the list of
`(connection, frame)` writes performed through `WriteWebsocketMessage`. -/

/-- `store.UserStore.GetUserByID`, consumed by the handler only for its
found / not-found outcome. -/
def GetUserByID (users : List Nat) (id : Nat) : Option Unit :=
  if id ∈ users then some () else none

/-- `api.WSMessage`; absent JSON fields decode to Go zero values. The
`CreatedAt` timestamp string is modelled as an abstract `Nat` clock
reading. -/
structure WSMessage where
  type : String := ""
  senderId : Nat := 0
  receiverId : Nat := 0
  content : List Nat := []
  error : String := ""
  createdAt : Nat := 0
deriving DecidableEq, Repr

/-- One outbound frame: either a `WSMessage` envelope or the
`messages_history` map literal built by `handleGetMessages`. -/
inductive OutFrame where
  | ws (m : WSMessage)
  | history (senderId receiverId : Nat) (messages : List Message)
deriving DecidableEq, Repr

/-- `h.clients[x]` map lookup (the registry's resolve). -/
def lookupClient (clients : List (Nat × Nat)) (x : Nat) : Option Nat :=
  (clients.find? (fun p => p.1 == x)).map (·.2)

/-- Write a frame to the connection registered for `x`, skipping silently
when `x` has no registered connection (the `if exists` guards around
`WriteWebsocketMessage` calls). -/
def writeToClient (clients : List (Nat × Nat)) (x : Nat) (f : OutFrame) :
    List (Nat × Nat × OutFrame) :=
  match lookupClient clients x with
  | some conn => [(x, conn, f)]
  | none => []

/-- `handleSendMessage`: validate `receiver_id` and `content`, resolve the
receiver via `GetUserByID`, persist via `CreateMessage`, then push a
`new_message` envelope stamped with `time.Now()` (the `now` argument) to
the recipient's and the sender's registered connections; delivery to an
unregistered side is silently skipped. Store-write failure (which reports
`Failed to send message` to the sender and writes nothing else) is not
modelled, following `CreateMessage`. -/
def handleSendMessage (sb : SecretBox) (key nonce : List Nat) (users : List Nat)
    (clients : List (Nat × Nat)) (db : DB) (dbNow now senderID : Nat)
    (msg : WSMessage) : DB × List (Nat × Nat × OutFrame) :=
  if msg.receiverId = 0 then
    (db, writeToClient clients senderID (.ws { type := "error", error := "Receiver ID is required" }))
  else if msg.content = [] then
    (db, writeToClient clients senderID (.ws { type := "error", error := "Content is required" }))
  else
    match GetUserByID users msg.receiverId with
    | none =>
      (db, writeToClient clients senderID (.ws { type := "error", error := "Receiver user not found" }))
    | some _ =>
      let created := CreateMessage sb key nonce db dbNow senderID msg.receiverId msg.content
      let frame : WSMessage :=
        { type := "new_message", senderId := senderID, receiverId := msg.receiverId,
          content := msg.content, createdAt := now }
      (created.1,
       writeToClient clients msg.receiverId (.ws frame) ++
         writeToClient clients senderID (.ws frame))

/-- `handleGetMessages`: validate `receiver_id`, query the store, reply
with one `messages_history` frame to the requester. -/
def handleGetMessages (sb : SecretBox) (key : List Nat) (clients : List (Nat × Nat))
    (db : DB) (senderID : Nat) (msg : WSMessage) : List (Nat × Nat × OutFrame) :=
  if msg.receiverId = 0 then
    writeToClient clients senderID (.ws { type := "error", error := "Receiver ID is required" })
  else
    match GetMessagesBetweenUsers sb key db senderID msg.receiverId with
    | none =>
      writeToClient clients senderID (.ws { type := "error", error := "Failed to get messages" })
    | some messages =>
      writeToClient clients senderID (.history senderID msg.receiverId messages)

/-! ### JSON serialization of history entries

Go's `encoding/json` marshals the exported fields of `store.Message` in
declaration order under their tag names, skipping `EncryptedContent`
(tagged `json:"-"`); no field carries `omitempty`. -/

/-- A serialized JSON field value (number or string). -/
inductive JValue where
  | num (n : Nat)
  | str (bytes : List Nat)
deriving DecidableEq, Repr

/-- The JSON object Go marshals for one `store.Message` history entry. -/
def marshalMessage (m : Message) : List (String × JValue) :=
  [("id", .num m.id), ("sender_id", .num m.senderId), ("receiver_id", .num m.receiverId),
   ("content", .str m.content), ("created_at", .num m.createdAt)]

/-! ### Connection registry lifecycle (`HandleWebSocket`)

After a successful upgrade, `HandleWebSocket` runs
`h.clients[userID] = conn` and defers both `delete(h.clients, userID)` and
`conn.Close()`; the deferred delete is keyed only by the user id and does
not compare the stored connection. The relevant state is the registry map
plus the set of connection handles not yet closed. -/

structure ServerState where
  registry : List (Nat × Nat)
  openConns : List Nat
deriving DecidableEq, Repr

/-- `delete(h.clients, x)`. -/
def eraseClient (reg : List (Nat × Nat)) (x : Nat) : List (Nat × Nat) :=
  reg.filter (fun p => !(p.1 == x))

/-- `h.clients[x] = conn`: map insert, overwriting any existing entry
without touching the prior connection handle. -/
def insertClient (reg : List (Nat × Nat)) (x conn : Nat) : List (Nat × Nat) :=
  (x, conn) :: eraseClient reg x

/-- The two registry-relevant events of a connection's lifetime in
`HandleWebSocket`: a successful upgrade registering `(x, conn)`, and the
receive loop of `conn` (opened for `x`) exiting, which runs the deferred
`delete(h.clients, x)` and `conn.Close()`. -/
inductive ConnEvent where
  | connect (x conn : Nat)
  | loopExit (x conn : Nat)
deriving DecidableEq, Repr

def connStep (s : ServerState) : ConnEvent → ServerState
  | .connect x conn =>
    { registry := insertClient s.registry x conn, openConns := conn :: s.openConns }
  | .loopExit x conn =>
    { registry := eraseClient s.registry x, openConns := s.openConns.erase conn }

/-! ### Concrete scenarios for witnesses and counterexamples -/

instance : IsTotal Row rowLe := ⟨fun r₁ r₂ => Nat.le_total r₁.createdAt r₂.createdAt⟩

instance : IsTrans Row rowLe := ⟨fun _ _ _ => Nat.le_trans⟩

/-- A concrete store: three messages between users 1 and 2 appended with
store timestamps 3, 1, 2 (out of order), so the query must re-order. -/
def dbW : DB :=
  let d₁ := (CreateMessage sbModel key0 nonce0 ⟨[], 1⟩ 3 1 2 [65]).1
  let d₂ := (CreateMessage sbModel key0 nonce0 d₁ 1 2 1 [66]).1
  (CreateMessage sbModel key0 nonce0 d₂ 2 1 2 [67]).1

def msgsW : List Message :=
  [⟨2, 2, 1, Encrypt sbModel key0 nonce0 [66], [66], 1⟩,
   ⟨3, 1, 2, Encrypt sbModel key0 nonce0 [67], [67], 2⟩,
   ⟨1, 1, 2, Encrypt sbModel key0 nonce0 [65], [65], 3⟩]

/-- C7 counterexample scenario: user 1 sends one message to user 2 and
then requests the history of that conversation. -/
def c7DB : DB := (CreateMessage sbModel key0 nonce0 ⟨[], 1⟩ 5 1 2 [104, 105]).1

def c7Clients : List (Nat × Nat) := [(1, 10), (2, 20)]

def c7Frames : List (Nat × Nat × OutFrame) :=
  handleGetMessages sbModel key0 c7Clients c7DB 1 { type := "get_history", receiverId := 2 }

def c7Entry : Message :=
  match c7Frames with
  | [(_, _, .history _ _ (m :: _))] => m
  | _ => default

/-- C8 counterexample scenario: users 1 and 2 both connected, user 1 sends
"hi" to user 2 with the handler clock reading 1 while the database clock
assigns `created_at` 2; user 2 then requests the history. -/
def c8Users : List Nat := [1, 2]

def c8Clients : List (Nat × Nat) := [(1, 11), (2, 22)]

def c8Send : DB × List (Nat × Nat × OutFrame) :=
  handleSendMessage sbModel key0 nonce0 c8Users c8Clients ⟨[], 1⟩ 2 1 1
    { type := "send_message", receiverId := 2, content := [104, 105] }

def c8Hist : List (Nat × Nat × OutFrame) :=
  handleGetMessages sbModel key0 c8Clients c8Send.1 2 { type := "get_history", receiverId := 1 }

def c8Frame : WSMessage :=
  { type := "new_message", senderId := 1, receiverId := 2, content := [104, 105], createdAt := 1 }

def c8Entry : Message :=
  match c8Hist with
  | [(_, _, .history _ _ (m :: _))] => m
  | _ => default

/-! ## Theorems -/

/-! ### Base64 facts -/

theorem b64Alphabet_length : b64Alphabet.length = 64 := by decide

theorem b64Index_b64Char : ∀ n < 64, b64Index (b64Char n) = some n := by decide

theorem b64Char_ne_pad : ∀ n < 64, b64Char n ≠ '=' := by decide

theorem b64Char_not_crlf : ∀ n, b64Char n ≠ '\r' ∧ b64Char n ≠ '\n' := by
  intro n
  by_cases h : n < 64
  · revert h
    revert n
    decide
  · unfold b64Char
    rw [List.getD_eq_default _ _ (by rw [b64Alphabet_length]; omega)]
    decide

theorem b64EncodeBytes_not_crlf :
    ∀ l : List Nat, ∀ c ∈ b64EncodeBytes l, !(c == '\r' || c == '\n')
  | [], c, hc => by simp [b64EncodeBytes] at hc
  | [a], c, hc => by
    simp only [b64EncodeBytes, List.mem_cons, List.not_mem_nil, or_false] at hc
    rcases hc with rfl | rfl | rfl | rfl
    · simp [(b64Char_not_crlf _).1, (b64Char_not_crlf _).2]
    · simp [(b64Char_not_crlf _).1, (b64Char_not_crlf _).2]
    · decide
    · decide
  | [a, b], c, hc => by
    simp only [b64EncodeBytes, List.mem_cons, List.not_mem_nil, or_false] at hc
    rcases hc with rfl | rfl | rfl | rfl
    · simp [(b64Char_not_crlf _).1, (b64Char_not_crlf _).2]
    · simp [(b64Char_not_crlf _).1, (b64Char_not_crlf _).2]
    · simp [(b64Char_not_crlf _).1, (b64Char_not_crlf _).2]
    · decide
  | a :: b :: c' :: rest, c, hc => by
    simp only [b64EncodeBytes, List.mem_cons] at hc
    rcases hc with rfl | rfl | rfl | rfl | hc
    · simp [(b64Char_not_crlf _).1, (b64Char_not_crlf _).2]
    · simp [(b64Char_not_crlf _).1, (b64Char_not_crlf _).2]
    · simp [(b64Char_not_crlf _).1, (b64Char_not_crlf _).2]
    · simp [(b64Char_not_crlf _).1, (b64Char_not_crlf _).2]
    · exact b64EncodeBytes_not_crlf rest c hc

theorem b64DecodeQuads_encodeBytes :
    ∀ l : List Nat, (∀ b ∈ l, b < 256) → b64DecodeQuads (b64EncodeBytes l) = some l
  | [], _ => rfl
  | [a], h => by
    have ha : a < 256 := h a (by simp)
    have h1 : a % 256 * 65536 / 262144 % 64 < 64 := Nat.mod_lt _ (by omega)
    have h2 : a % 256 * 65536 / 4096 % 64 < 64 := Nat.mod_lt _ (by omega)
    simp only [b64EncodeBytes, b64DecodeQuads,
      b64Index_b64Char _ h1, b64Index_b64Char _ h2, Option.bind_some,
      if_pos rfl, if_pos (And.intro rfl rfl)]
    refine congrArg some (congrArg (fun x => [x]) ?_)
    omega
  | [a, b], h => by
    have ha : a < 256 := h a (by simp)
    have hb : b < 256 := h b (by simp)
    have h1 : (a % 256 * 65536 + b % 256 * 256) / 262144 % 64 < 64 := Nat.mod_lt _ (by omega)
    have h2 : (a % 256 * 65536 + b % 256 * 256) / 4096 % 64 < 64 := Nat.mod_lt _ (by omega)
    have h3 : (a % 256 * 65536 + b % 256 * 256) / 64 % 64 < 64 := Nat.mod_lt _ (by omega)
    simp only [b64EncodeBytes, b64DecodeQuads,
      b64Index_b64Char _ h1, b64Index_b64Char _ h2, b64Index_b64Char _ h3, Option.bind_some,
      if_neg (b64Char_ne_pad _ h3), if_pos rfl]
    refine congrArg some ?_
    refine List.cons_eq_cons.mpr ⟨by omega, ?_⟩
    refine congrArg (fun x => [x]) ?_
    omega
  | a :: b :: c :: rest, h => by
    have ha : a < 256 := h a (by simp)
    have hb : b < 256 := h b (by simp)
    have hc : c < 256 := h c (by simp)
    have hrest : ∀ x ∈ rest, x < 256 := fun x hx => h x (by simp [hx])
    have h1 : (a % 256 * 65536 + b % 256 * 256 + c % 256) / 262144 % 64 < 64 :=
      Nat.mod_lt _ (by omega)
    have h2 : (a % 256 * 65536 + b % 256 * 256 + c % 256) / 4096 % 64 < 64 :=
      Nat.mod_lt _ (by omega)
    have h3 : (a % 256 * 65536 + b % 256 * 256 + c % 256) / 64 % 64 < 64 :=
      Nat.mod_lt _ (by omega)
    have h4 : (a % 256 * 65536 + b % 256 * 256 + c % 256) % 64 < 64 :=
      Nat.mod_lt _ (by omega)
    have ih := b64DecodeQuads_encodeBytes rest hrest
    simp only [b64EncodeBytes, b64DecodeQuads,
      b64Index_b64Char _ h1, b64Index_b64Char _ h2, b64Index_b64Char _ h3,
      b64Index_b64Char _ h4, Option.bind_some,
      if_neg (b64Char_ne_pad _ h3), if_neg (b64Char_ne_pad _ h4), ih]
    refine congrArg some ?_
    refine List.cons_eq_cons.mpr ⟨by omega, ?_⟩
    refine List.cons_eq_cons.mpr ⟨by omega, ?_⟩
    refine List.cons_eq_cons.mpr ⟨by omega, rfl⟩

/-- Round-trip of the base64 model: decoding an encoded byte list gives
the byte list back. -/
theorem b64Decode_b64Encode (l : List Nat) (h : ∀ b ∈ l, b < 256) :
    b64Decode (b64Encode l) = some l := by
  unfold b64Decode b64Encode
  rw [show (String.mk (b64EncodeBytes l)).data = b64EncodeBytes l from rfl,
    List.filter_eq_self.mpr (b64EncodeBytes_not_crlf l)]
  exact b64DecodeQuads_encodeBytes l h

/-- C2: for every plaintext (including the empty one) and every 24-byte
nonce drawn during encryption, decrypting the encryption returns the
plaintext with no error. -/
theorem decrypt_encrypt (sb : SecretBox) (key nonce pt : List Nat)
    (hn : nonce.length = 24) (hnb : ∀ b ∈ nonce, b < 256) (hpb : ∀ b ∈ pt, b < 256) :
    Decrypt sb key (Encrypt sb key nonce pt) = (pt, none) := by
  have hbytes : ∀ b ∈ nonce ++ sb.sealBox nonce key pt, b < 256 := by
    intro b hb
    rcases List.mem_append.mp hb with h | h
    · exact hnb b h
    · exact sb.seal_bytes nonce key pt hpb b h
  have hlen : ¬ (nonce ++ sb.sealBox nonce key pt).length < 24 := by
    simp [hn]
  have ht : (nonce ++ sb.sealBox nonce key pt).take 24 = nonce := List.take_left' hn
  have hd : (nonce ++ sb.sealBox nonce key pt).drop 24 = sb.sealBox nonce key pt :=
    List.drop_left' hn
  unfold Decrypt Encrypt
  rw [b64Decode_b64Encode _ hbytes]
  simp only [if_neg hlen, ht, hd, sb.open_seal nonce key pt hpb]

theorem decrypt_encrypt_witness :
    Decrypt sbModel key0 (Encrypt sbModel key0 nonce0 [104, 105]) = ([104, 105], none) :=
  decrypt_encrypt sbModel key0 nonce0 [104, 105] (by decide) (by decide) (by decide)

/-- C6: `Decrypt` fails exactly when the input is not valid base64, or the
decoded data is shorter than the 24-byte nonce (which covers the empty
input), or authenticated decryption rejects the box; and on every failure
the returned plaintext is empty. -/
theorem decrypt_error_conditions (sb : SecretBox) (key : List Nat) (s : String) :
    ((Decrypt sb key s).2 ≠ none ↔
      b64Decode s = none ∨
        ∃ data, b64Decode s = some data ∧
          (data.length < 24 ∨ sb.boxOpen (data.take 24) key (data.drop 24) = none)) ∧
    ((Decrypt sb key s).2 ≠ none → (Decrypt sb key s).1 = []) := by
  unfold Decrypt
  rcases hdec : b64Decode s with _ | data
  · simp
  · by_cases hlen : data.length < 24
    · simp [hlen]
    · rcases hbox : sb.boxOpen (data.take 24) key (data.drop 24) with _ | pt
      · simp [hlen, hbox]
      · simp [hlen, hbox]

theorem decrypt_error_conditions_witness :
    (Decrypt sbModel key0 "").2 ≠ none ∧ (Decrypt sbModel key0 "").1 = [] := by
  have h := decrypt_error_conditions sbModel key0 ""
  have herr : (Decrypt sbModel key0 "").2 ≠ none :=
    h.1.mpr (Or.inr ⟨[], by decide, Or.inl (by decide)⟩)
  exact ⟨herr, h.2 herr⟩

/-- A successful scan loop returns exactly the query rows in order, each
with its plaintext obtained by a successful decrypt of its ciphertext. -/
theorem scanRows_eq_some (sb : SecretBox) (key : List Nat) :
    ∀ (l : List Row) (msgs : List Message), scanRows sb key l = some msgs →
      msgs.map Message.toRow = l ∧
      ∀ m ∈ msgs, Decrypt sb key m.encryptedContent = (m.content, none)
  | [], msgs, h => by
    simp only [scanRows, Option.some.injEq] at h
    subst h
    simp
  | r :: rest, msgs, h => by
    rw [scanRows] at h
    rcases hd : Decrypt sb key r.encryptedContent with ⟨content, err⟩
    rw [hd] at h
    cases err with
    | some e => simp at h
    | none =>
      rcases hs : scanRows sb key rest with _ | ms
      · rw [hs] at h; simp at h
      · rw [hs] at h
        simp only [Option.map, Option.some.injEq] at h
        subst h
        obtain ⟨ih₁, ih₂⟩ := scanRows_eq_some sb key rest ms hs
        refine ⟨?_, ?_⟩
        · simp [Message.toRow, ih₁]
        · intro m hm
          rcases List.mem_cons.mp hm with rfl | hm
          · exact hd
          · exact ih₂ m hm

/-- The `WHERE` clause is symmetric in the two user ids. -/
theorem pairFilter_comm (a b : Nat) (r : Row) : pairFilter a b r = pairFilter b a r := by
  simp only [pairFilter]
  exact Bool.or_comm _ _

/-- C1: `GetMessagesBetweenUsers a b` is the same regardless of argument
order, and on success returns exactly the stored messages whose
`{sender_id, receiver_id}` is the unordered pair `{a, b}` (as a
permutation of the filtered rows), in ascending `created_at` order, with
each plaintext obtained by decrypting the stored ciphertext. -/
theorem getMessagesBetweenUsers_spec (sb : SecretBox) (key : List Nat) (db : DB) (a b : Nat) :
    GetMessagesBetweenUsers sb key db a b = GetMessagesBetweenUsers sb key db b a ∧
    ∀ msgs, GetMessagesBetweenUsers sb key db a b = some msgs →
      List.Pairwise (fun m₁ m₂ => m₁.createdAt ≤ m₂.createdAt) msgs ∧
      List.Perm (msgs.map Message.toRow) (db.rows.filter (pairFilter a b)) ∧
      ∀ m ∈ msgs, Decrypt sb key m.encryptedContent = (m.content, none) := by
  have hquery : queryMessagesBetween db a b = queryMessagesBetween db b a := by
    unfold queryMessagesBetween
    rw [List.filter_congr (fun r _ => pairFilter_comm a b r)]
  constructor
  · unfold GetMessagesBetweenUsers
    rw [hquery]
  · intro msgs h
    obtain ⟨hrows, hdec⟩ := scanRows_eq_some sb key _ msgs h
    refine ⟨?_, ?_, hdec⟩
    · have hsorted : List.Sorted rowLe (queryMessagesBetween db a b) :=
        List.sorted_insertionSort rowLe _
      rw [← hrows] at hsorted
      have := (List.pairwise_map).mp hsorted
      exact this.imp (fun hle => hle)
    · rw [hrows]
      exact List.perm_insertionSort rowLe _

theorem getMessagesBetweenUsers_spec_witness :
    List.Pairwise (fun m₁ m₂ => m₁.createdAt ≤ m₂.createdAt) msgsW ∧
    List.Perm (msgsW.map Message.toRow) (dbW.rows.filter (pairFilter 1 2)) ∧
    ∀ m ∈ msgsW, Decrypt sbModel key0 m.encryptedContent = (m.content, none) :=
  (getMessagesBetweenUsers_spec sbModel key0 dbW 1 2).2 msgsW (by decide)

theorem lookupClient_insert_self (reg : List (Nat × Nat)) (x conn : Nat) :
    lookupClient (insertClient reg x conn) x = some conn := by
  simp [lookupClient, insertClient, List.find?]

theorem lookupClient_cons_ne (p : Nat × Nat) (rest : List (Nat × Nat)) (y : Nat)
    (h : (p.1 == y) = false) : lookupClient (p :: rest) y = lookupClient rest y := by
  simp [lookupClient, List.find?, h]

theorem lookupClient_erase_ne (reg : List (Nat × Nat)) (x y : Nat) (h : y ≠ x) :
    lookupClient (eraseClient reg x) y = lookupClient reg y := by
  induction reg with
  | nil => rfl
  | cons p rest ih =>
    by_cases hp : p.1 = x
    · have hpy : (p.1 == y) = false := by simp [hp]; omega
      have he : eraseClient (p :: rest) x = eraseClient rest x := by
        simp [eraseClient, List.filter_cons, hp]
      rw [he, ih, lookupClient_cons_ne p rest y hpy]
    · have he : eraseClient (p :: rest) x = p :: eraseClient rest x := by
        simp [eraseClient, List.filter_cons, hp]
      rw [he]
      by_cases hpy : p.1 = y
      · simp [lookupClient, List.find?, hpy]
      · have hpy' : (p.1 == y) = false := by simp [hpy]
        rw [lookupClient_cons_ne p _ y hpy', lookupClient_cons_ne p rest y hpy', ih]

theorem lookupClient_erase_self (reg : List (Nat × Nat)) (x : Nat) :
    lookupClient (eraseClient reg x) x = none := by
  have hfind : List.find? (fun p => p.1 == x) (eraseClient reg x) = none := by
    rw [List.find?_eq_none]
    intro p hp
    have h2 := (List.mem_filter.mp hp).2
    simpa using h2
  simp [lookupClient, hfind]

/-- C5: registering a second connection for an identity that already has
one makes the registry resolve that identity to the new connection,
changes no other identity's entry, and does not close the first
connection's handle. -/
theorem connect_overwrites (s : ServerState) (x c₁ c₂ : Nat)
    (h₁ : lookupClient s.registry x = some c₁) (h₂ : c₁ ∈ s.openConns) :
    lookupClient (connStep s (.connect x c₂)).registry x = some c₂ ∧
    (∀ y, y ≠ x →
      lookupClient (connStep s (.connect x c₂)).registry y = lookupClient s.registry y) ∧
    c₁ ∈ (connStep s (.connect x c₂)).openConns := by
  refine ⟨lookupClient_insert_self _ _ _, ?_, ?_⟩
  · intro y hy
    show lookupClient (insertClient s.registry x c₂) y = _
    unfold insertClient
    rw [lookupClient_cons_ne _ _ _ (by simp; omega), lookupClient_erase_ne s.registry x y hy]
  · exact List.mem_cons_of_mem _ h₂

theorem connect_overwrites_witness :
    lookupClient (connStep ⟨[(7, 100)], [100]⟩ (.connect 7 200)).registry 7 = some 200 ∧
    (∀ y, y ≠ 7 →
      lookupClient (connStep ⟨[(7, 100)], [100]⟩ (.connect 7 200)).registry y =
        lookupClient [(7, 100)] y) ∧
    100 ∈ (connStep ⟨[(7, 100)], [100]⟩ (.connect 7 200)).openConns :=
  connect_overwrites ⟨[(7, 100)], [100]⟩ 7 100 200 (by decide) (by decide)

/-- C10: the deferred cleanup of a receive loop deletes the registry entry
keyed by the loop's identity unconditionally: after identity `x` connects
with `c₁` and then with `c₂` (which overwrites the entry, making `x`
resolve to `c₂`), the exit of the first loop removes the entry for the
still-live second connection — `x` no longer resolves while `c₂` remains
open. -/
theorem loopExit_deletes_unconditionally (s : ServerState) (x c₁ c₂ : Nat) (hne : c₁ ≠ c₂) :
    lookupClient
      (connStep (connStep (connStep s (.connect x c₁)) (.connect x c₂))
        (.loopExit x c₁)).registry x = none ∧
    lookupClient (connStep (connStep s (.connect x c₁)) (.connect x c₂)).registry x = some c₂ ∧
    c₂ ∈ (connStep (connStep (connStep s (.connect x c₁)) (.connect x c₂))
        (.loopExit x c₁)).openConns := by
  refine ⟨lookupClient_erase_self _ _, lookupClient_insert_self _ _ _, ?_⟩
  show c₂ ∈ (c₂ :: c₁ :: s.openConns).erase c₁
  rw [List.mem_erase_of_ne hne.symm]
  exact List.mem_cons_self _ _

/-- C3: with a valid, existing receiver that has no registered connection,
`handleSendMessage` still persists the message via `CreateMessage`, and
every frame it writes goes to the sender's registered connection and is a
`new_message` envelope — nothing (and in particular no error and no
queued retry) is written for the absent recipient. -/
theorem handleSendMessage_offlineRecipient (sb : SecretBox) (key nonce users : List Nat)
    (clients : List (Nat × Nat)) (db : DB) (dbNow now senderID : Nat) (msg : WSMessage)
    (h₀ : msg.receiverId ≠ 0) (h₁ : msg.content ≠ [])
    (h₂ : GetUserByID users msg.receiverId = some ())
    (h₃ : lookupClient clients msg.receiverId = none) :
    (handleSendMessage sb key nonce users clients db dbNow now senderID msg).1.rows =
      db.rows ++ [⟨db.nextId, senderID, msg.receiverId,
        Encrypt sb key nonce msg.content, dbNow⟩] ∧
    ∀ w ∈ (handleSendMessage sb key nonce users clients db dbNow now senderID msg).2,
      w.1 = senderID ∧ lookupClient clients senderID = some w.2.1 ∧
        w.2.2 = OutFrame.ws
          { type := "new_message", senderId := senderID, receiverId := msg.receiverId,
            content := msg.content, createdAt := now } := by
  unfold handleSendMessage
  rw [if_neg h₀, if_neg h₁, h₂]
  unfold writeToClient
  rw [h₃]
  constructor
  · rfl
  · intro w hw
    rcases hs : lookupClient clients senderID with _ | conn
    · rw [hs] at hw; simp at hw
    · rw [hs] at hw
      simp only [List.nil_append, List.mem_singleton] at hw
      subst hw
      exact ⟨rfl, rfl, rfl⟩

theorem handleSendMessage_offlineRecipient_witness :
    (handleSendMessage sbModel key0 nonce0 [1, 2] [(1, 11)] ⟨[], 1⟩ 2 1 1
        { type := "send_message", receiverId := 2, content := [104, 105] }).1.rows =
      [] ++ [⟨1, 1, 2, Encrypt sbModel key0 nonce0 [104, 105], 2⟩] ∧
    ∀ w ∈ (handleSendMessage sbModel key0 nonce0 [1, 2] [(1, 11)] ⟨[], 1⟩ 2 1 1
        { type := "send_message", receiverId := 2, content := [104, 105] }).2,
      w.1 = 1 ∧ lookupClient [(1, 11)] 1 = some w.2.1 ∧
        w.2.2 = OutFrame.ws
          { type := "new_message", senderId := 1, receiverId := 2,
            content := [104, 105], createdAt := 1 } :=
  handleSendMessage_offlineRecipient sbModel key0 nonce0 [1, 2] [(1, 11)] ⟨[], 1⟩ 2 1 1
    { type := "send_message", receiverId := 2, content := [104, 105] }
    (by decide) (by decide) (by decide) (by decide)

/-- C4: when the receiver id does not resolve via `GetUserByID`, the
handler leaves the store untouched (never reaching `CreateMessage`) and
writes exactly one `Receiver user not found` error envelope to the
sender's connection (nothing if the sender has no registered connection,
and nothing to anyone else). -/
theorem handleSendMessage_unknownRecipient (sb : SecretBox) (key nonce users : List Nat)
    (clients : List (Nat × Nat)) (db : DB) (dbNow now senderID : Nat) (msg : WSMessage)
    (h₀ : msg.receiverId ≠ 0) (h₁ : msg.content ≠ [])
    (h₂ : GetUserByID users msg.receiverId = none) :
    (handleSendMessage sb key nonce users clients db dbNow now senderID msg).1 = db ∧
    (handleSendMessage sb key nonce users clients db dbNow now senderID msg).2 =
      writeToClient clients senderID
        (.ws { type := "error", error := "Receiver user not found" }) ∧
    ∀ w ∈ (handleSendMessage sb key nonce users clients db dbNow now senderID msg).2,
      w.1 = senderID ∧ lookupClient clients senderID = some w.2.1 := by
  unfold handleSendMessage
  rw [if_neg h₀, if_neg h₁, h₂]
  refine ⟨rfl, rfl, ?_⟩
  intro w hw
  unfold writeToClient at hw
  rcases hs : lookupClient clients senderID with _ | conn
  · rw [hs] at hw; simp at hw
  · rw [hs] at hw
    simp only [List.mem_singleton] at hw
    subst hw
    exact ⟨rfl, rfl⟩

theorem handleSendMessage_unknownRecipient_witness :
    (handleSendMessage sbModel key0 nonce0 [1] [(1, 11)] ⟨[], 1⟩ 2 1 1
        { type := "send_message", receiverId := 2, content := [104, 105] }).1 = ⟨[], 1⟩ ∧
    (handleSendMessage sbModel key0 nonce0 [1] [(1, 11)] ⟨[], 1⟩ 2 1 1
        { type := "send_message", receiverId := 2, content := [104, 105] }).2 =
      writeToClient [(1, 11)] 1 (.ws { type := "error", error := "Receiver user not found" }) ∧
    ∀ w ∈ (handleSendMessage sbModel key0 nonce0 [1] [(1, 11)] ⟨[], 1⟩ 2 1 1
        { type := "send_message", receiverId := 2, content := [104, 105] }).2,
      w.1 = 1 ∧ lookupClient [(1, 11)] 1 = some w.2.1 :=
  handleSendMessage_unknownRecipient sbModel key0 nonce0 [1] [(1, 11)] ⟨[], 1⟩ 2 1 1
    { type := "send_message", receiverId := 2, content := [104, 105] }
    (by decide) (by decide) (by decide)

/-- C7 counterexample: the `messages_history` reply produced by
`handleGetMessages` serializes an `id` field for its entry (Go marshals
the `ID int` field under its `json:"id"` tag), so the entry's fields are
not exactly `{sender_id, receiver_id, content, created_at}`. -/
theorem historyEntry_serializes_id :
    c7Frames = [(1, 10, .history 1 2 [c7Entry])] ∧
    "id" ∈ (marshalMessage c7Entry).map Prod.fst ∧
    (marshalMessage c7Entry).map Prod.fst ≠
      ["sender_id", "receiver_id", "content", "created_at"] := by
  refine ⟨by decide, by decide, by decide⟩

/-- C7 amended: every entry of every `messages_history` frame written by
`handleGetMessages` serializes exactly the fields `id`, `sender_id`,
`receiver_id`, `content`, `created_at` (in Go's declaration order) — in
particular the ciphertext (`EncryptedContent`, tagged `json:"-"`) is
never serialized, but the store-assigned `id` is. -/
theorem historyEntry_fields (sb : SecretBox) (key : List Nat) (clients : List (Nat × Nat))
    (db : DB) (senderID : Nat) (msg : WSMessage) (conn target sid rid : Nat)
    (messages : List Message)
    (h : (target, conn, OutFrame.history sid rid messages) ∈
      handleGetMessages sb key clients db senderID msg) :
    ∀ m ∈ messages,
      (marshalMessage m).map Prod.fst = ["id", "sender_id", "receiver_id", "content", "created_at"] := by
  intro m _
  rfl

theorem historyEntry_fields_witness :
    (marshalMessage c7Entry).map Prod.fst =
      ["id", "sender_id", "receiver_id", "content", "created_at"] :=
  historyEntry_fields sbModel key0 c7Clients c7DB 1 { type := "get_history", receiverId := 2 }
    10 1 1 2 [c7Entry] (by decide) c7Entry (by decide)

/-- C8 counterexample: in the end-to-end flow the live `new_message`
envelope delivered to user 2 carries the handler's `time.Now()` reading
(1), while the store persisted and the later `messages_history` reply
returns the database-assigned `created_at` (2) — the two timestamps
differ, because `handleSendMessage` discards the `Message` returned by
`CreateMessage` and stamps the envelope with its own clock. -/
theorem newMessage_createdAt_differs_from_store :
    (2, 22, OutFrame.ws c8Frame) ∈ c8Send.2 ∧
    c8Hist = [(2, 22, .history 2 1 [c8Entry])] ∧
    c8Entry.senderId = 1 ∧ c8Entry.receiverId = 2 ∧ c8Entry.content = [104, 105] ∧
    c8Frame.createdAt ≠ c8Entry.createdAt := by
  refine ⟨by decide, by decide, by decide, by decide, by decide, by decide⟩

/-- C8 amended: the `new_message` envelope pushed at send time is stamped
with the handler's `time.Now()` reading, while the persisted row (whose
`created_at` the `messages_history` reply returns) carries the
store-assigned timestamp; the two clocks are independent, so the envelope
and the stored history agree only when the readings happen to coincide. -/
theorem sendMessage_clock_split (sb : SecretBox) (key nonce users : List Nat)
    (clients : List (Nat × Nat)) (db : DB) (dbNow now senderID : Nat) (msg : WSMessage)
    (h₀ : msg.receiverId ≠ 0) (h₁ : msg.content ≠ [])
    (h₂ : GetUserByID users msg.receiverId = some ()) :
    (∀ w ∈ (handleSendMessage sb key nonce users clients db dbNow now senderID msg).2,
      w.2.2 = OutFrame.ws
        { type := "new_message", senderId := senderID, receiverId := msg.receiverId,
          content := msg.content, createdAt := now }) ∧
    (handleSendMessage sb key nonce users clients db dbNow now senderID msg).1.rows =
      db.rows ++ [⟨db.nextId, senderID, msg.receiverId,
        Encrypt sb key nonce msg.content, dbNow⟩] := by
  unfold handleSendMessage
  rw [if_neg h₀, if_neg h₁, h₂]
  refine ⟨?_, rfl⟩
  intro w hw
  unfold writeToClient at hw
  rcases hr : lookupClient clients msg.receiverId with _ | rconn <;>
    rcases hs : lookupClient clients senderID with _ | sconn <;>
      rw [hr, hs] at hw <;> simp at hw <;>
        first
          | (rcases hw with rfl | rfl; rfl; rfl)
          | (subst hw; rfl)

theorem sendMessage_clock_split_witness :
    (∀ w ∈ c8Send.2,
      w.2.2 = OutFrame.ws
        { type := "new_message", senderId := 1, receiverId := 2,
          content := [104, 105], createdAt := 1 }) ∧
    c8Send.1.rows = ([] : List Row) ++
      [⟨1, 1, 2, Encrypt sbModel key0 nonce0 [104, 105], 2⟩] :=
  sendMessage_clock_split sbModel key0 nonce0 c8Users c8Clients ⟨[], 1⟩ 2 1 1
    { type := "send_message", receiverId := 2, content := [104, 105] }
    (by decide) (by decide) (by decide)

theorem loopExit_deletes_unconditionally_witness :
    lookupClient
      (connStep (connStep (connStep ⟨[], []⟩ (.connect 7 100)) (.connect 7 200))
        (.loopExit 7 100)).registry 7 = none ∧
    lookupClient (connStep (connStep ⟨[], []⟩ (.connect 7 100)) (.connect 7 200)).registry 7 =
      some 200 ∧
    200 ∈ (connStep (connStep (connStep ⟨[], []⟩ (.connect 7 100)) (.connect 7 200))
        (.loopExit 7 100)).openConns :=
  loopExit_deletes_unconditionally ⟨[], []⟩ 7 100 200 (by decide)

end Chat
